import Mathlib

/-!
# Library management system: date arithmetic, loans, fines, registry

A shallow embedding of `src/library.cpp` and theorems about it.

Modelling conventions

* `int` is a 32-bit two's complement integer.  Its values are modelled by `Int`,
  and the results of the `int` operations that can leave the 32-bit range
  (`*`, `+`, `-`, `++` in `Date::daysDifference` and `Date::addDays`) are reduced
  to that range by `CInt.wrap`, which is what the compiled program computes;
  the C++ standard leaves signed overflow undefined.  Theorems are stated for
  all `Int` field values, which include every value an `int` can hold.
* `double` (`finePerDay_`, `totalFines_`, `amount`) is modelled by `ℚ`: finite
  values with exact arithmetic.  Rounding, infinities and NaN are not modelled.
* A `Book*` is modelled by `Option BookRef`: `none` is `nullptr`, and
  `some ⟨addr, obj⟩` is a pointer with address `addr` whose pointee is `obj`.
  Functions that mutate the pointee return the new pointee.
* Mutating member functions return the value they return in C++ together with
  the new state of the object.
* Output written to `std::cout` / `std::cerr` is not modelled.
-/

namespace LMS

/-! ## 32-bit `int` arithmetic -/

namespace CInt

/-- The 32-bit two's complement value that represents the integer `x`. -/
def wrap (x : Int) : Int := (x + 2147483648) % 4294967296 - 2147483648

/-- `a + b` on `int`. -/
def add (a b : Int) : Int := wrap (a + b)

/-- `a - b` on `int`. -/
def sub (a b : Int) : Int := wrap (a - b)

/-- `a * b` on `int`. -/
def mul (a b : Int) : Int := wrap (a * b)

end CInt

/-! ## Date -/

/-- The exceptions thrown by the program. -/
inductive Exception where
  | invalid_argument (what : String)
deriving DecidableEq, Repr

/-- The fields of `class Date`. -/
structure Date where
  day_ : Int
  month_ : Int
  year_ : Int
deriving DecidableEq, Repr

namespace Date

/-- `Date::isLeapYear`; `%` of C++ is the truncating remainder `Int.tmod`. -/
def isLeapYear (year : Int) : Bool :=
  (year.tmod 4 == 0) && ((year.tmod 100 != 0) || (year.tmod 400 == 0))

/-- The local array `days` of `Date::daysInMonth`. -/
def days : List Int := [31, 28, 31, 30, 31, 30, 31, 31, 30, 31, 30, 31]

/-- `Date::daysInMonth`. -/
def daysInMonth (month year : Int) : Int :=
  if month == 2 && isLeapYear year then 29
  else if decide (month ≥ 1) && decide (month ≤ 12) then days.getD (month - 1).toNat 0
  else 0

/-- `Date::isValid`. -/
def isValid (self : Date) : Bool :=
  decide (self.year_ ≥ 1900) &&
    decide (self.month_ ≥ 1) && decide (self.month_ ≤ 12) &&
    decide (self.day_ ≥ 1) && decide (self.day_ ≤ daysInMonth self.month_ self.year_)

/-- The constructor `Date::Date(day, month, year)`: stores the three arguments and
throws `std::invalid_argument("Invalid date")` when `isValid` fails. -/
def make (day month year : Int) : Except Exception Date :=
  if !(isValid ⟨day, month, year⟩) then
    Except.error (Exception.invalid_argument "Invalid date")
  else
    Except.ok ⟨day, month, year⟩

/-- `Date::operator==`. -/
def eq (self other : Date) : Bool :=
  self.day_ == other.day_ && self.month_ == other.month_ && self.year_ == other.year_

/-- `Date::operator<`. -/
def lt (self other : Date) : Bool :=
  if self.year_ != other.year_ then decide (self.year_ < other.year_)
  else if self.month_ != other.month_ then decide (self.month_ < other.month_)
  else decide (self.day_ < other.day_)

/-- `Date::operator>`. -/
def gt (self other : Date) : Bool := lt other self

/-- `Date::operator<=`. -/
def le (self other : Date) : Bool := !(lt other self)

/-- `Date::operator>=`. -/
def ge (self other : Date) : Bool := !(lt self other)

/-- `Date::operator!=`. -/
def ne (self other : Date) : Bool := !(eq self other)

/-- One iteration of the body of the `while` loop of `Date::addDays`; the three increments
`day_++`, `month_++`, `year_++` are 32-bit additions. -/
def addDaysBody (result : Date) : Date :=
  let result : Date := ⟨CInt.add result.day_ 1, result.month_, result.year_⟩
  if result.day_ > daysInMonth result.month_ result.year_ then
    let result : Date := ⟨1, CInt.add result.month_ 1, result.year_⟩
    if result.month_ > 12 then ⟨result.day_, 1, CInt.add result.year_ 1⟩ else result
  else result

/-- The loop `while (days-- > 0) { ... }` of `Date::addDays`, run for `n` iterations. -/
def addDaysLoop : Nat → Date → Date
  | 0, result => result
  | n + 1, result => addDaysLoop n (addDaysBody result)

/-- `Date::addDays`: the loop body runs `days` times when `days > 0` and not at all
otherwise, which is `days.toNat` iterations. -/
def addDays (self : Date) (days : Int) : Date :=
  addDaysLoop days.toNat self

/-- `Date::daysDifference`; every `*`, `+` and `-` is the 32-bit operation. -/
def daysDifference (self other : Date) : Int :=
  let days1 := CInt.add (CInt.add (CInt.mul self.year_ 365) (CInt.mul self.month_ 30)) self.day_
  let days2 :=
    CInt.add (CInt.add (CInt.mul other.year_ 365) (CInt.mul other.month_ 30)) other.day_
  CInt.sub days1 days2

end Date

/-! ## Book -/

/-- The fields of `class Book`; a null `std::unique_ptr<Date>` is `none`. -/
structure Book where
  title_ : String
  author_ : String
  isbn_ : String
  isBorrowed_ : Bool
  borrowDate_ : Option Date
  dueDate_ : Option Date
  finePerDay_ : ℚ
deriving DecidableEq

namespace Book

/-- The constructor `Book::Book(title, author, isbn, finePerDay)`. -/
def make (title author isbn : String) (finePerDay : ℚ) : Book :=
  ⟨title, author, isbn, false, none, none, finePerDay⟩

/-- The default value `0.5` of the constructor argument `finePerDay`. -/
def defaultFinePerDay : ℚ := 1 / 2

/-- `Book::borrow`: the returned flag and the book afterwards. -/
def borrow (self : Book) (borrowDate : Date) (loanDays : Int) : Bool × Book :=
  if !self.isBorrowed_ then
    (true, ⟨self.title_, self.author_, self.isbn_, true,
      some borrowDate, some (borrowDate.addDays loanDays), self.finePerDay_⟩)
  else
    (false, self)

/-- `Book::returnBook`: the returned flag and the book afterwards. -/
def returnBook (self : Book) (_returnDate : Date) : Bool × Book :=
  if self.isBorrowed_ then
    (true, ⟨self.title_, self.author_, self.isbn_, false, none, none, self.finePerDay_⟩)
  else
    (false, self)

/-- `Book::isOverdue`: `isBorrowed_ && dueDate_ && currentDate > *dueDate_`. -/
def isOverdue (self : Book) (currentDate : Date) : Bool :=
  self.isBorrowed_ &&
    (match self.dueDate_ with
     | some due => currentDate.gt due
     | none => false)

/-- `Book::calculateFine`.  `*dueDate_` is only dereferenced after `isOverdue`
has established that it is not null. -/
def calculateFine (self : Book) (currentDate : Date) : ℚ :=
  if !(self.isOverdue currentDate) then 0
  else
    match self.dueDate_ with
    | some due =>
        let overdueDays : Int := currentDate.daysDifference due
        (overdueDays : ℚ) * self.finePerDay_
    | none => 0

end Book

/-- A non-null `Book*`: its address and the object it points to. -/
structure BookRef where
  addr : Nat
  obj : Book
deriving DecidableEq

/-! ## LibraryMember -/

/-- The fields of `class LibraryMember`.  `borrowedBooks_` holds the addresses of the
stored `Book*`; `borrowBook` is the only function that pushes to it and it never
pushes `nullptr`. -/
structure LibraryMember where
  name_ : String
  memberId_ : Int
  borrowedBooks_ : List Nat
  totalFines_ : ℚ
deriving DecidableEq

namespace LibraryMember

/-- The constructor `LibraryMember::LibraryMember(name, id)`. -/
def make (name : String) (id : Int) : LibraryMember :=
  ⟨name, id, [], 0⟩

/-- `LibraryMember::borrowBook`: the returned flag, the member afterwards and the
pointee afterwards. -/
def borrowBook (self : LibraryMember) (book : Option BookRef) (borrowDate : Date)
    (loanDays : Int) : Bool × LibraryMember × Option BookRef :=
  match book with
  | none => (false, self, none)
  | some ref =>
    if self.borrowedBooks_.length ≥ 5 then (false, self, some ref)
    else
      let r := ref.obj.borrow borrowDate loanDays
      if r.1 then
        (true, ⟨self.name_, self.memberId_, self.borrowedBooks_ ++ [ref.addr], self.totalFines_⟩,
          some ⟨ref.addr, r.2⟩)
      else
        (false, self, some ⟨ref.addr, r.2⟩)

/-- `LibraryMember::returnBook`: the returned flag, the member afterwards and the
pointee afterwards.  `std::find` looks for the pointer value; `Book::returnBook` is
called inside the condition, before the fine is computed on the same object. -/
def returnBook (self : LibraryMember) (book : Option BookRef) (returnDate : Date) :
    Bool × LibraryMember × Option BookRef :=
  match book with
  | none => (false, self, none)
  | some ref =>
    if self.borrowedBooks_.contains ref.addr then
      let r := ref.obj.returnBook returnDate
      if r.1 then
        let books := self.borrowedBooks_.erase ref.addr
        let fines :=
          if r.2.isOverdue returnDate then self.totalFines_ + r.2.calculateFine returnDate
          else self.totalFines_
        (true, ⟨self.name_, self.memberId_, books, fines⟩, some ⟨ref.addr, r.2⟩)
      else
        (false, self, some ⟨ref.addr, r.2⟩)
    else
      (false, self, some ref)

/-- `LibraryMember::payFine`. -/
def payFine (self : LibraryMember) (amount : ℚ) : LibraryMember :=
  if decide (amount > 0) && decide (amount ≤ self.totalFines_) then
    ⟨self.name_, self.memberId_, self.borrowedBooks_, self.totalFines_ - amount⟩
  else self

end LibraryMember

/-! ## Library -/

/-- The fields of `class Library`.  `books_` lists the owned `Book` objects with their
addresses, `members_` the owned `LibraryMember` objects, both in vector order. -/
structure Library where
  books_ : List BookRef
  members_ : List LibraryMember
  dataFile_ : String
  currentDate_ : Date
deriving DecidableEq

/-- Overwrites the first element satisfying `p`: the write through the pointer
that `std::find_if` with predicate `p` returned. -/
def storeFirst {α : Type} (p : α → Bool) (new : α) : List α → List α
  | [] => []
  | x :: xs => if p x then new :: xs else x :: storeFirst p new xs

namespace Library

/-- The constructor `Library::Library(dataFile)`; `Date(28, 1, 2024)` is a valid date. -/
def make (dataFile : String) : Library :=
  ⟨[], [], dataFile, ⟨28, 1, 2024⟩⟩

/-- `Library::isIsbnUnique`. -/
def isIsbnUnique (self : Library) (isbn : String) : Bool :=
  self.books_.all (fun book => !(book.obj.isbn_ == isbn))

/-- `Library::isMemberIdUnique`. -/
def isMemberIdUnique (self : Library) (id : Int) : Bool :=
  self.members_.all (fun member => !(member.memberId_ == id))

/-- `Library::addBook`.  `addr` is the address of the object allocated by
`std::make_unique<Book>`. -/
def addBook (self : Library) (title author isbn : String) (addr : Nat) : Bool × Library :=
  if !(self.isIsbnUnique isbn) then (false, self)
  else
    (true, ⟨self.books_ ++ [⟨addr, Book.make title author isbn Book.defaultFinePerDay⟩],
      self.members_, self.dataFile_, self.currentDate_⟩)

/-- `Library::removeBook`: `std::remove_if` keeps, in order, the entries that do not
match; the returned iterator differs from `end()` when some entry matched. -/
def removeBook (self : Library) (isbn : String) : Bool × Library :=
  let kept := self.books_.filter (fun book => !(book.obj.isbn_ == isbn))
  if kept.length < self.books_.length then
    (true, ⟨kept, self.members_, self.dataFile_, self.currentDate_⟩)
  else (false, self)

/-- `Library::addMember`. -/
def addMember (self : Library) (name : String) (id : Int) : Bool × Library :=
  if !(self.isMemberIdUnique id) then (false, self)
  else
    (true, ⟨self.books_, self.members_ ++ [LibraryMember.make name id],
      self.dataFile_, self.currentDate_⟩)

/-- `Library::findBookByIsbn`; `none` is `nullptr`. -/
def findBookByIsbn (self : Library) (isbn : String) : Option BookRef :=
  self.books_.find? (fun book => book.obj.isbn_ == isbn)

/-- `Library::findMemberById`; `none` is `nullptr`. -/
def findMemberById (self : Library) (id : Int) : Option LibraryMember :=
  self.members_.find? (fun member => member.memberId_ == id)

/-- Writes the results of a member operation back through the two pointers that
`findBookByIsbn` and `findMemberById` returned. -/
def store (self : Library) (isbn : String) (memberId : Int)
    (r : Bool × LibraryMember × Option BookRef) : Bool × Library :=
  let books :=
    match r.2.2 with
    | some ref => storeFirst (fun book => book.obj.isbn_ == isbn) ref self.books_
    | none => self.books_
  let members := storeFirst (fun member => member.memberId_ == memberId) r.2.1 self.members_
  (r.1, ⟨books, members, self.dataFile_, self.currentDate_⟩)

/-- `Library::borrowBook`. -/
def borrowBook (self : Library) (isbn : String) (memberId : Int) (loanDays : Int) :
    Bool × Library :=
  match self.findBookByIsbn isbn, self.findMemberById memberId with
  | some book, some member =>
      self.store isbn memberId (member.borrowBook (some book) self.currentDate_ loanDays)
  | _, _ => (false, self)

/-- `Library::returnBook`. -/
def returnBook (self : Library) (isbn : String) (memberId : Int) : Bool × Library :=
  match self.findBookByIsbn isbn, self.findMemberById memberId with
  | some book, some member =>
      self.store isbn memberId (member.returnBook (some book) self.currentDate_)
  | _, _ => (false, self)

/-- `Library::setCurrentDate`. -/
def setCurrentDate (self : Library) (date : Date) : Library :=
  ⟨self.books_, self.members_, self.dataFile_, date⟩

end Library

/-! ## Reachable member states -/

/-- The states a `LibraryMember` object can be in: a newly constructed member, and
any state obtained from such a state by a call of `borrowBook`, `returnBook` or
`payFine` with arbitrary arguments. -/
inductive LibraryMember.Reachable : LibraryMember → Prop where
  | init (name : String) (id : Int) : Reachable (LibraryMember.make name id)
  | borrowBook {m : LibraryMember} (book : Option BookRef) (borrowDate : Date) (loanDays : Int) :
      Reachable m → Reachable (m.borrowBook book borrowDate loanDays).2.1
  | returnBook {m : LibraryMember} (book : Option BookRef) (returnDate : Date) :
      Reachable m → Reachable (m.returnBook book returnDate).2.1
  | payFine {m : LibraryMember} (amount : ℚ) :
      Reachable m → Reachable (m.payFine amount)

/-! ## Reachable book and registry states -/

/-- The states a `Book` object can be in: a newly constructed book, and any state obtained
from such a state by a call of `borrow` or `returnBook` with arbitrary arguments. -/
inductive Book.Reachable : Book → Prop where
  | init (title author isbn : String) (finePerDay : ℚ) :
      Reachable (Book.make title author isbn finePerDay)
  | borrow {b : Book} (borrowDate : Date) (loanDays : Int) :
      Reachable b → Reachable (b.borrow borrowDate loanDays).2
  | returnBook {b : Book} (returnDate : Date) :
      Reachable b → Reachable (b.returnBook returnDate).2

/-- The states a `Library` object can be in: a newly constructed registry, and any state
obtained from such a state by a call of `addBook`, `removeBook`, `addMember`, `borrowBook`,
`returnBook` or `setCurrentDate` with arbitrary arguments (and an arbitrary address for
the book allocated by `addBook`). -/
inductive Library.Reachable : Library → Prop where
  | init (dataFile : String) : Reachable (Library.make dataFile)
  | addBook {lib : Library} (title author isbn : String) (addr : Nat) :
      Reachable lib → Reachable (lib.addBook title author isbn addr).2
  | removeBook {lib : Library} (isbn : String) :
      Reachable lib → Reachable (lib.removeBook isbn).2
  | addMember {lib : Library} (name : String) (id : Int) :
      Reachable lib → Reachable (lib.addMember name id).2
  | borrowBook {lib : Library} (isbn : String) (memberId : Int) (loanDays : Int) :
      Reachable lib → Reachable (lib.borrowBook isbn memberId loanDays).2
  | returnBook {lib : Library} (isbn : String) (memberId : Int) :
      Reachable lib → Reachable (lib.returnBook isbn memberId).2
  | setCurrentDate {lib : Library} (date : Date) :
      Reachable lib → Reachable (lib.setCurrentDate date)

/-! ## A day scale for bounding the year

These two definitions are not part of the program; they measure how far a date can
travel before `year_++` would leave the 32-bit range. -/

/-- The number of days before the first day of each month in a year of 365 days. -/
def Date.cumDays : List Int := [0, 31, 59, 90, 120, 151, 181, 212, 243, 273, 304, 334]

/-- The number of days before the first day of `month` in a year of 365 days. -/
def Date.daysBefore (month : Int) : Int :=
  Date.cumDays.getD (month - 1).toNat 0

/-- The position of a date on a scale that gives every year 365 days. -/
def Date.ordinal365 (x : Date) : Int :=
  365 * x.year_ + Date.daysBefore x.month_ + x.day_

/-! ## The demo scenario of `runLibraryDemo` -/

/-- The first book of the demo after `library.borrowBook("9780321563842", 1001, 7)` on
the initial current date 2024-01-28. -/
def demoBook : Book :=
  ((Book.make "The C++ Programming Language" "Bjarne Stroustrup" "9780321563842"
    Book.defaultFinePerDay).borrow ⟨28, 1, 2024⟩ 7).2

/-- The member Anna of the demo, holding the book at address `1`. -/
def demoMember : LibraryMember :=
  ⟨"Anna", 1001, [1], 0⟩

/-- The registry of the demo after its first book and first member have been added. -/
def demoLibrary : Library :=
  ⟨[⟨1, Book.make "The C++ Programming Language" "Bjarne Stroustrup" "9780321563842" (1 / 2)⟩],
    [LibraryMember.make "Anna" 1001], "library_data.txt", ⟨28, 1, 2024⟩⟩

/-- The demo registry after `library.borrowBook("9780321563842", 1001, 7)`: its only book is
on loan to Anna. -/
def demoLibraryOnLoan : Library :=
  (demoLibrary.borrowBook "9780321563842" 1001 7).2

/-- The registry reached from a new `Library` by adding the first book of the demo (allocated
at address 1) and the first member of the demo. -/
def demoLibraryStart : Library :=
  (((Library.make "library_data.txt").addBook "The C++ Programming Language"
    "Bjarne Stroustrup" "9780321563842" 1).2.addMember "Anna" 1001).2

/-! ## General lemmas -/

/-- `Book::returnBook` always leaves the book not borrowed. -/
theorem Book.returnBook_isBorrowed (b : Book) (r : Date) :
    (b.returnBook r).2.isBorrowed_ = false := by
  unfold Book.returnBook
  cases h : b.isBorrowed_ <;> simp [h]

/-- A book that is not borrowed is never overdue. -/
theorem Book.isOverdue_of_not_borrowed (b : Book) (c : Date) (h : b.isBorrowed_ = false) :
    b.isOverdue c = false := by
  simp [Book.isOverdue, h]

/-- On every input `LibraryMember::returnBook` leaves `totalFines_` as it was: the fine is
computed after `Book::returnBook` has already cleared the loan. -/
theorem LibraryMember.returnBook_totalFines (m : LibraryMember) (book : Option BookRef)
    (r : Date) : (m.returnBook book r).2.1.totalFines_ = m.totalFines_ := by
  unfold LibraryMember.returnBook
  cases book with
  | none => rfl
  | some ref =>
    have h := Book.isOverdue_of_not_borrowed _ r (Book.returnBook_isBorrowed ref.obj r)
    simp only [h, Bool.false_eq_true, if_false]
    split_ifs <;> rfl

/-- The fine of an overdue loan is `daysDifference` times the rate. -/
theorem Book.calculateFine_of_overdue (b : Book) (c d : Date) (hb : b.isBorrowed_ = true)
    (hd : b.dueDate_ = some d) (hgt : c.gt d = true) :
    b.calculateFine c = ((c.daysDifference d : Int) : ℚ) * b.finePerDay_ := by
  simp [Book.calculateFine, Book.isOverdue, hb, hd, hgt]

/-- The fine of the demo loan on 2024-02-07. -/
theorem demoBook_fine : demoBook.calculateFine ⟨7, 2, 2024⟩ = 3 / 2 := by
  rw [Book.calculateFine_of_overdue demoBook ⟨7, 2, 2024⟩ ⟨4, 2, 2024⟩ (by decide) (by decide)
    (by decide)]
  have h1 : Date.daysDifference ⟨7, 2, 2024⟩ ⟨4, 2, 2024⟩ = 3 := by decide
  have h2 : demoBook.finePerDay_ = 1 / 2 := rfl
  rw [h1, h2]
  norm_num

/-- `Date::isLeapYear` in terms of divisibility. -/
theorem Date.isLeapYear_iff (y : Int) :
    Date.isLeapYear y = true ↔ (4 ∣ y ∧ (¬ (100 ∣ y) ∨ 400 ∣ y)) := by
  simp [Date.isLeapYear, Int.dvd_iff_tmod_eq_zero]

/-- `Date::isValid` as a conjunction of bounds. -/
theorem Date.isValid_iff (x : Date) :
    x.isValid = true ↔
      (x.year_ ≥ 1900 ∧ 1 ≤ x.month_ ∧ x.month_ ≤ 12 ∧ 1 ≤ x.day_ ∧
        x.day_ ≤ Date.daysInMonth x.month_ x.year_) := by
  simp [Date.isValid, and_assoc]

/-- No month has more than 31 days. -/
theorem Date.daysInMonth_le (m y : Int) : Date.daysInMonth m y ≤ 31 := by
  unfold Date.daysInMonth
  split_ifs with h1 h2
  · decide
  · simp only [Bool.and_eq_true, decide_eq_true_eq] at h2
    obtain ⟨hlo, hhi⟩ := h2
    interval_cases m <;> decide
  · decide

/-- December has 31 days. -/
theorem Date.daysInMonth_december (y : Int) : Date.daysInMonth 12 y = 31 := by
  simp [Date.daysInMonth, Date.days]

/-- `Date::operator<` is the lexicographic order on (year, month, day). -/
theorem Date.lt_iff (a b : Date) :
    a.lt b = true ↔
      (a.year_ < b.year_ ∨ (a.year_ = b.year_ ∧
        (a.month_ < b.month_ ∨ (a.month_ = b.month_ ∧ a.day_ < b.day_)))) := by
  unfold Date.lt
  by_cases hy : a.year_ = b.year_
  · by_cases hm : a.month_ = b.month_
    · simp [hy, hm]
    · simp [hy, hm]
  · simp only [bne_iff_ne, ne_eq, hy, not_false_eq_true, if_true, decide_eq_true_eq]
    constructor
    · intro h
      exact Or.inl h
    · intro h
      simpa using h

/-- `Date::operator==` holds exactly for equal field triples. -/
theorem Date.eq_iff (a b : Date) : a.eq b = true ↔ a = b := by
  cases a
  cases b
  simp [Date.eq, and_comm, and_assoc, and_left_comm]

/-- `Date::operator<` is transitive. -/
theorem Date.lt_trans (a b c : Date) (hab : a.lt b = true) (hbc : b.lt c = true) :
    a.lt c = true := by
  rw [Date.lt_iff] at hab hbc ⊢
  omega

/-- Every month in 1..12 has at least 28 days. -/
theorem Date.daysInMonth_ge (m y : Int) (h1 : 1 ≤ m) (h12 : m ≤ 12) :
    28 ≤ Date.daysInMonth m y := by
  unfold Date.daysInMonth
  split_ifs with ha hb
  · decide
  · interval_cases m <;> decide
  · simp [h1, h12] at hb

/-- Values in the 32-bit range are represented by themselves. -/
theorem CInt.wrap_eq (x : Int) (h1 : -2147483648 ≤ x) (h2 : x ≤ 2147483647) :
    CInt.wrap x = x := by
  unfold CInt.wrap
  omega

/-- A 32-bit addition whose exact result is in range is exact. -/
theorem CInt.add_eq (a b : Int) (h1 : -2147483648 ≤ a + b) (h2 : a + b ≤ 2147483647) :
    CInt.add a b = a + b :=
  CInt.wrap_eq _ h1 h2

/-- The three cases of one run of the loop body of `addDays` on a valid date. -/
theorem Date.addDaysBody_eq (x : Date) (hx : x.isValid = true) :
    (x.day_ < Date.daysInMonth x.month_ x.year_ →
      Date.addDaysBody x = ⟨x.day_ + 1, x.month_, x.year_⟩) ∧
    (x.day_ = Date.daysInMonth x.month_ x.year_ → x.month_ < 12 →
      Date.addDaysBody x = ⟨1, x.month_ + 1, x.year_⟩) ∧
    (x.day_ = Date.daysInMonth x.month_ x.year_ → x.month_ = 12 →
      Date.addDaysBody x = ⟨1, 1, CInt.add x.year_ 1⟩) := by
  obtain ⟨hy, hm1, hm12, hd1, hd⟩ := (Date.isValid_iff x).mp hx
  have h31 := Date.daysInMonth_le x.month_ x.year_
  have hday : CInt.add x.day_ 1 = x.day_ + 1 := CInt.add_eq _ _ (by omega) (by omega)
  have hmon : CInt.add x.month_ 1 = x.month_ + 1 := CInt.add_eq _ _ (by omega) (by omega)
  unfold Date.addDaysBody
  simp only [hday, hmon]
  refine ⟨?_, ?_, ?_⟩
  · intro h
    have hn : ¬ (x.day_ + 1 > Date.daysInMonth x.month_ x.year_) := by omega
    simp only [hn, if_false]
  · intro h hlt
    have hgt : x.day_ + 1 > Date.daysInMonth x.month_ x.year_ := by omega
    have hn : ¬ (x.month_ + 1 > 12) := by omega
    simp only [hgt, hn, if_true, if_false]
  · intro h hm
    have hgt : x.day_ + 1 > Date.daysInMonth x.month_ x.year_ := by omega
    have hmo : x.month_ + 1 > 12 := by omega
    simp only [hgt, hmo, if_true]

/-- On the 365-day scale a month ends no later than the next one starts. -/
theorem Date.daysBefore_step (m y : Int) (h1 : 1 ≤ m) (h11 : m ≤ 11) :
    Date.daysBefore (m + 1) ≤ Date.daysBefore m + Date.daysInMonth m y := by
  by_cases h2 : m = 2
  · subst h2
    cases hl : Date.isLeapYear y <;>
      simp [Date.daysBefore, Date.cumDays, Date.daysInMonth, Date.days, hl]
  · interval_cases m <;>
      simp [Date.daysBefore, Date.cumDays, Date.daysInMonth, Date.days] at h2 ⊢

/-- On the 365-day scale no month starts before day 0 or ends after day 365. -/
theorem Date.daysBefore_bounds (m y : Int) (h1 : 1 ≤ m) (h12 : m ≤ 12) :
    0 ≤ Date.daysBefore m ∧ Date.daysBefore m + Date.daysInMonth m y ≤ 365 := by
  by_cases h2 : m = 2
  · subst h2
    cases hl : Date.isLeapYear y <;>
      simp [Date.daysBefore, Date.cumDays, Date.daysInMonth, Date.days, hl]
  · interval_cases m <;>
      simp [Date.daysBefore, Date.cumDays, Date.daysInMonth, Date.days] at h2 ⊢

/-- The position of a valid date on the 365-day scale lies within its year. -/
theorem Date.ordinal365_bounds (x : Date) (hx : x.isValid = true) :
    365 * x.year_ + 1 ≤ Date.ordinal365 x ∧ Date.ordinal365 x ≤ 365 * x.year_ + 365 := by
  obtain ⟨hy, hm1, hm12, hd1, hd⟩ := (Date.isValid_iff x).mp hx
  obtain ⟨h0, h365⟩ := Date.daysBefore_bounds x.month_ x.year_ hm1 hm12
  unfold Date.ordinal365
  omega

/-- One run of the loop body of `addDays` on a valid date that is not the last day of the
year 2147483647: the result is valid, strictly later, and at most one step further on the
365-day scale. -/
theorem Date.addDaysBody_step (x : Date) (hx : x.isValid = true)
    (hov : Date.ordinal365 x < 365 * 2147483647 + 365) :
    (Date.addDaysBody x).isValid = true ∧
    Date.ordinal365 (Date.addDaysBody x) ≤ Date.ordinal365 x + 1 ∧
    x.lt (Date.addDaysBody x) = true := by
  obtain ⟨hy, hm1, hm12, hd1, hd⟩ := (Date.isValid_iff x).mp hx
  obtain ⟨e1, e2, e3⟩ := Date.addDaysBody_eq x hx
  rcases lt_or_eq_of_le hd with h | h
  · rw [e1 h]
    refine ⟨(Date.isValid_iff _).mpr ⟨hy, hm1, hm12, by simp only; omega, by simp only; omega⟩,
      ?_, (Date.lt_iff _ _).mpr (Or.inr ⟨rfl, Or.inr ⟨rfl, by simp only; omega⟩⟩)⟩
    unfold Date.ordinal365
    simp only
    omega
  · rcases lt_or_eq_of_le hm12 with hlt | heq
    · rw [e2 h hlt]
      have hge := Date.daysInMonth_ge (x.month_ + 1) x.year_ (by omega) (by omega)
      have hst := Date.daysBefore_step x.month_ x.year_ hm1 (by omega)
      refine ⟨(Date.isValid_iff _).mpr
          ⟨hy, by simp only; omega, by simp only; omega, by simp only; omega,
            by simp only; omega⟩,
        ?_, (Date.lt_iff _ _).mpr (Or.inr ⟨rfl, Or.inl (by simp only; omega)⟩)⟩
      unfold Date.ordinal365
      simp only
      omega
    · have hdec := Date.daysInMonth_december x.year_
      have hb12 : Date.daysBefore 12 = 334 := by simp [Date.daysBefore, Date.cumDays]
      have hb1 : Date.daysBefore 1 = 0 := by simp [Date.daysBefore, Date.cumDays]
      have hord : Date.ordinal365 x = 365 * x.year_ + 365 := by
        unfold Date.ordinal365
        rw [heq, hb12, h, heq, hdec]
        omega
      have hyear : CInt.add x.year_ 1 = x.year_ + 1 := CInt.add_eq _ _ (by omega) (by omega)
      rw [e3 h heq, hyear]
      have hge := Date.daysInMonth_ge 1 (x.year_ + 1) (by decide) (by decide)
      refine ⟨(Date.isValid_iff _).mpr
          ⟨by simp only; omega, by simp only; omega, by simp only; omega, by simp only; omega,
            by simp only; omega⟩,
        ?_, (Date.lt_iff _ _).mpr (Or.inl (by simp only; omega))⟩
      rw [hord]
      unfold Date.ordinal365
      simp only [hb1]
      omega

/-- The loop of `addDays` on a valid date that stays within the 32-bit years: the result is
valid and at most `n` steps further on the 365-day scale. -/
theorem Date.addDaysLoop_step (n : Nat) (x : Date) (hx : x.isValid = true)
    (hov : Date.ordinal365 x + n ≤ 365 * 2147483647 + 365) :
    (Date.addDaysLoop n x).isValid = true ∧
    Date.ordinal365 (Date.addDaysLoop n x) ≤ Date.ordinal365 x + n := by
  induction n generalizing x with
  | zero => exact ⟨hx, by simp [Date.addDaysLoop]⟩
  | succ k ih =>
    have hk : ((k + 1 : Nat) : Int) = (k : Int) + 1 := by push_cast; rfl
    rw [hk] at hov ⊢
    obtain ⟨hv, ho, _⟩ := Date.addDaysBody_step x hx (by omega)
    obtain ⟨hv2, ho2⟩ := ih (Date.addDaysBody x) hv (by omega)
    exact ⟨hv2, by unfold Date.addDaysLoop; omega⟩

/-- Running the loop of `addDays` for `m + n` iterations is running it for `m` and then
for `n` iterations. -/
theorem Date.addDaysLoop_add (m n : Nat) (x : Date) :
    Date.addDaysLoop (m + n) x = Date.addDaysLoop n (Date.addDaysLoop m x) := by
  induction m generalizing x with
  | zero => simp [Date.addDaysLoop]
  | succ k ih =>
    rw [Nat.succ_add]
    exact ih (Date.addDaysBody x)

/-- A positive number of iterations of the loop of `addDays` moves a valid date that stays
within the 32-bit years strictly forward. -/
theorem Date.lt_addDaysLoop (n : Nat) (x : Date) (hx : x.isValid = true)
    (hov : Date.ordinal365 x + n ≤ 365 * 2147483647 + 365) (hn : 0 < n) :
    x.lt (Date.addDaysLoop n x) = true := by
  induction n generalizing x with
  | zero => exact absurd hn (lt_irrefl 0)
  | succ k ih =>
    have hk : ((k + 1 : Nat) : Int) = (k : Int) + 1 := by push_cast; rfl
    rw [hk] at hov
    obtain ⟨hv, ho, hlt⟩ := Date.addDaysBody_step x hx (by omega)
    rcases Nat.eq_zero_or_pos k with hk0 | hk0
    · subst hk0
      exact hlt
    · exact Date.lt_trans _ _ _ hlt (ih (Date.addDaysBody x) hv (by omega) hk0)

/-- A number of days `n` with `n <= 365 * (2147483647 - year)` keeps a valid date within the
32-bit years. -/
theorem Date.ordinal365_add_le (x : Date) (hx : x.isValid = true) (n : Int)
    (hov : n ≤ 365 * (2147483647 - x.year_)) :
    Date.ordinal365 x + n ≤ 365 * 2147483647 + 365 := by
  have h := (Date.ordinal365_bounds x hx).2
  omega

/-- Overwriting the first match with an element of the same key keeps the list of keys. -/
theorem storeFirst_map {α β : Type} (p : α → Bool) (new : α) (f : α → β) (l : List α)
    (h : ∀ x ∈ l, p x = true → f new = f x) : (storeFirst p new l).map f = l.map f := by
  induction l with
  | nil => rfl
  | cons x xs ih =>
    unfold storeFirst
    by_cases hp : p x = true
    · simp [hp, h x (List.mem_cons_self _ _) hp]
    · simp only [hp, if_false, List.map_cons, Bool.false_eq_true]
      rw [ih (fun y hy => h y (List.mem_cons_of_mem _ hy))]

/-- In a list without duplicate keys, searching for the key of an entry finds that entry. -/
theorem find?_of_nodup_keys {α κ : Type} [BEq κ] [LawfulBEq κ] (key : α → κ) (l : List α)
    (h : (l.map key).Nodup) (b : α) (hb : b ∈ l) :
    l.find? (fun x => key x == key b) = some b := by
  induction l with
  | nil => cases hb
  | cons x xs ih =>
    rw [List.map_cons, List.nodup_cons] at h
    rcases List.mem_cons.mp hb with hbx | hbxs
    · subst hbx
      simp
    · have hne : key x ≠ key b := by
        intro he
        exact h.1 (he ▸ List.mem_map_of_mem key hbxs)
      have hf : (key x == key b) = false := by
        simpa using hne
      rw [List.find?_cons, hf]
      exact ih h.2 hbxs

/-- `Book::borrow` never changes the isbn. -/
theorem Book.borrow_isbn (b : Book) (d : Date) (n : Int) :
    (b.borrow d n).2.isbn_ = b.isbn_ := by
  unfold Book.borrow
  split_ifs <;> rfl

/-- `Book::returnBook` never changes the isbn. -/
theorem Book.returnBook_isbn (b : Book) (r : Date) :
    (b.returnBook r).2.isbn_ = b.isbn_ := by
  unfold Book.returnBook
  split_ifs <;> rfl

/-- `LibraryMember::borrowBook` never changes the member id. -/
theorem LibraryMember.borrowBook_memberId (m : LibraryMember) (book : Option BookRef)
    (d : Date) (n : Int) : (m.borrowBook book d n).2.1.memberId_ = m.memberId_ := by
  unfold LibraryMember.borrowBook
  cases book with
  | none => rfl
  | some ref =>
    simp only
    split_ifs <;> rfl

/-- `LibraryMember::returnBook` never changes the member id. -/
theorem LibraryMember.returnBook_memberId (m : LibraryMember) (book : Option BookRef)
    (r : Date) : (m.returnBook book r).2.1.memberId_ = m.memberId_ := by
  unfold LibraryMember.returnBook
  cases book with
  | none => rfl
  | some ref =>
    simp only
    split_ifs <;> rfl

/-- `LibraryMember::borrowBook` never changes the isbn of the book it is given. -/
theorem LibraryMember.borrowBook_book_isbn (m : LibraryMember) (ref : BookRef) (d : Date) (n : Int)
    (ref2 : BookRef) (h : (m.borrowBook (some ref) d n).2.2 = some ref2) :
    ref2.obj.isbn_ = ref.obj.isbn_ := by
  unfold LibraryMember.borrowBook at h
  simp only at h
  split_ifs at h <;> cases h <;> first | rfl | exact Book.borrow_isbn _ _ _

/-- `LibraryMember::returnBook` never changes the isbn of the book it is given. -/
theorem LibraryMember.returnBook_book_isbn (m : LibraryMember) (ref : BookRef) (r : Date)
    (ref2 : BookRef) (h : (m.returnBook (some ref) r).2.2 = some ref2) :
    ref2.obj.isbn_ = ref.obj.isbn_ := by
  unfold LibraryMember.returnBook at h
  simp only at h
  split_ifs at h <;> cases h <;> first | rfl | exact Book.returnBook_isbn _ _

/-- Writing back a book with the searched isbn and a member with the searched id keeps
the isbn list and the member id list of the registry. -/
theorem Library.store_keys (lib : Library) (isbn : String) (memberId : Int)
    (r : Bool × LibraryMember × Option BookRef)
    (hb : ∀ ref, r.2.2 = some ref → ref.obj.isbn_ = isbn)
    (hm : r.2.1.memberId_ = memberId) :
    (lib.store isbn memberId r).2.books_.map (fun b => b.obj.isbn_) =
        lib.books_.map (fun b => b.obj.isbn_) ∧
      (lib.store isbn memberId r).2.members_.map (fun m => m.memberId_) =
        lib.members_.map (fun m => m.memberId_) := by
  unfold Library.store
  constructor
  · cases h : r.2.2 with
    | none => rfl
    | some ref =>
      simp only
      apply storeFirst_map
      intro x _ hx
      rw [hb ref h]
      exact (eq_of_beq hx).symm
  · simp only
    apply storeFirst_map
    intro x _ hx
    rw [hm]
    exact (eq_of_beq hx).symm

/-- `Library::borrowBook` keeps the isbn list and the member id list of the registry. -/
theorem Library.borrowBook_keys (lib : Library) (isbn : String) (memberId : Int) (n : Int) :
    (lib.borrowBook isbn memberId n).2.books_.map (fun b => b.obj.isbn_) =
        lib.books_.map (fun b => b.obj.isbn_) ∧
      (lib.borrowBook isbn memberId n).2.members_.map (fun m => m.memberId_) =
        lib.members_.map (fun m => m.memberId_) := by
  unfold Library.borrowBook
  cases hb : lib.findBookByIsbn isbn with
  | none => exact ⟨rfl, rfl⟩
  | some book =>
    cases hm : lib.findMemberById memberId with
    | none => exact ⟨rfl, rfl⟩
    | some member =>
      have hb2 : lib.books_.find? (fun b => b.obj.isbn_ == isbn) = some book := hb
      have hbi : book.obj.isbn_ = isbn := by
        simpa using List.find?_some hb2
      have hm2 : lib.members_.find? (fun m => m.memberId_ == memberId) = some member := hm
      have hmi : member.memberId_ = memberId := by
        simpa using List.find?_some hm2
      apply Library.store_keys
      · intro ref href
        rw [LibraryMember.borrowBook_book_isbn _ _ _ _ _ href, hbi]
      · rw [LibraryMember.borrowBook_memberId, hmi]

/-- `Library::returnBook` keeps the isbn list and the member id list of the registry. -/
theorem Library.returnBook_keys (lib : Library) (isbn : String) (memberId : Int) :
    (lib.returnBook isbn memberId).2.books_.map (fun b => b.obj.isbn_) =
        lib.books_.map (fun b => b.obj.isbn_) ∧
      (lib.returnBook isbn memberId).2.members_.map (fun m => m.memberId_) =
        lib.members_.map (fun m => m.memberId_) := by
  unfold Library.returnBook
  cases hb : lib.findBookByIsbn isbn with
  | none => exact ⟨rfl, rfl⟩
  | some book =>
    cases hm : lib.findMemberById memberId with
    | none => exact ⟨rfl, rfl⟩
    | some member =>
      have hb2 : lib.books_.find? (fun b => b.obj.isbn_ == isbn) = some book := hb
      have hbi : book.obj.isbn_ = isbn := by
        simpa using List.find?_some hb2
      have hm2 : lib.members_.find? (fun m => m.memberId_ == memberId) = some member := hm
      have hmi : member.memberId_ = memberId := by
        simpa using List.find?_some hm2
      apply Library.store_keys
      · intro ref href
        rw [LibraryMember.returnBook_book_isbn _ _ _ _ href, hbi]
      · rw [LibraryMember.returnBook_memberId, hmi]

/-- `Date::operator<` is asymmetric. -/
theorem Date.lt_asymm (a b : Date) (hab : a.lt b = true) : b.lt a = false := by
  rw [← Bool.not_eq_true, Date.lt_iff]
  rw [Date.lt_iff] at hab
  omega

/-- C1 (the code departs from the claim): in the demo scenario the member holds the book
at address 1, the book is borrowed with due date 2024-02-04, the return date 2024-02-07
is after the due date and the fine of the loan as of that date is 3 * 0.5 = 1.5;
`LibraryMember::returnBook` returns true, yet `totalFines_` afterwards is still 0, not
0 + 1.5. -/
theorem C1_returnBook_drops_fine :
    demoMember.borrowedBooks_.contains 1 = true ∧
    demoBook.isBorrowed_ = true ∧
    demoBook.dueDate_ = some ⟨4, 2, 2024⟩ ∧
    Date.gt ⟨7, 2, 2024⟩ ⟨4, 2, 2024⟩ = true ∧
    Date.addDays ⟨28, 1, 2024⟩ 10 = ⟨7, 2, 2024⟩ ∧
    Date.daysDifference ⟨7, 2, 2024⟩ ⟨4, 2, 2024⟩ = 3 ∧
    demoBook.calculateFine ⟨7, 2, 2024⟩ = 3 / 2 ∧
    (demoMember.returnBook (some ⟨1, demoBook⟩) ⟨7, 2, 2024⟩).1 = true ∧
    (demoMember.returnBook (some ⟨1, demoBook⟩) ⟨7, 2, 2024⟩).2.1.totalFines_ = 0 ∧
    (demoMember.returnBook (some ⟨1, demoBook⟩) ⟨7, 2, 2024⟩).2.1.totalFines_ ≠
      demoMember.totalFines_ + demoBook.calculateFine ⟨7, 2, 2024⟩ := by
  refine ⟨by decide, by decide, by decide, by decide, by decide, by decide, ?_, by decide, ?_, ?_⟩
  · exact demoBook_fine
  · rw [LibraryMember.returnBook_totalFines]
    rfl
  · rw [LibraryMember.returnBook_totalFines, demoBook_fine]
    have h : demoMember.totalFines_ = 0 := rfl
    rw [h]
    norm_num

/-- C3: both dates of the scenario are accepted by the constructor; a new book with
`finePerDay = 0.5` on which `borrow(Date(28,1,2024), 7)` is called is borrowed with
`dueDate` 2024-02-04; with that loan active `isOverdue(Date(14,2,2024))` is true,
`Date(14,2,2024).daysDifference(dueDate)` is 10 and `calculateFine(Date(14,2,2024))` is 5.0. -/
theorem C3_scenario (title author isbn : String) :
    Date.make 28 1 2024 = Except.ok ⟨28, 1, 2024⟩ ∧
    Date.make 14 2 2024 = Except.ok ⟨14, 2, 2024⟩ ∧
    ((Book.make title author isbn (1 / 2)).borrow ⟨28, 1, 2024⟩ 7).1 = true ∧
    ((Book.make title author isbn (1 / 2)).borrow ⟨28, 1, 2024⟩ 7).2.isBorrowed_ = true ∧
    ((Book.make title author isbn (1 / 2)).borrow ⟨28, 1, 2024⟩ 7).2.dueDate_ =
      some ⟨4, 2, 2024⟩ ∧
    ((Book.make title author isbn (1 / 2)).borrow ⟨28, 1, 2024⟩ 7).2.isOverdue
      ⟨14, 2, 2024⟩ = true ∧
    Date.daysDifference ⟨14, 2, 2024⟩ ⟨4, 2, 2024⟩ = 10 ∧
    ((Book.make title author isbn (1 / 2)).borrow ⟨28, 1, 2024⟩ 7).2.calculateFine
      ⟨14, 2, 2024⟩ = 5 := by
  have hdue : ((Book.make title author isbn (1 / 2)).borrow ⟨28, 1, 2024⟩ 7).2.dueDate_ =
      some ⟨4, 2, 2024⟩ := rfl
  have hdiff : Date.daysDifference ⟨14, 2, 2024⟩ ⟨4, 2, 2024⟩ = 10 := by decide
  refine ⟨rfl, rfl, rfl, rfl, hdue, ?_, hdiff, ?_⟩
  · simp only [Book.isOverdue, hdue]
    rfl
  · rw [Book.calculateFine_of_overdue _ ⟨14, 2, 2024⟩ ⟨4, 2, 2024⟩ rfl hdue (by decide), hdiff]
    have hrate : ((Book.make title author isbn (1 / 2)).borrow ⟨28, 1, 2024⟩ 7).2.finePerDay_ =
        1 / 2 := rfl
    rw [hrate]
    norm_num

/-- C4: for every member whose active set holds 5 (or more) books and every book pointer,
date and loanDays, `LibraryMember::borrowBook` returns false and leaves the member and the
pointee exactly as they were; and in every state reachable from a new member by
`borrowBook` / `returnBook` / `payFine` the active set has at most 5 entries. -/
theorem C4_borrowBook_limit :
    (∀ (m : LibraryMember) (book : Option BookRef) (d : Date) (n : Int),
      5 ≤ m.borrowedBooks_.length → m.borrowBook book d n = (false, m, book)) ∧
    (∀ m : LibraryMember, LibraryMember.Reachable m → m.borrowedBooks_.length ≤ 5) := by
  constructor
  · intro m book d n h
    cases book with
    | none => rfl
    | some ref => simp [LibraryMember.borrowBook, h]
  · intro m hm
    induction hm with
    | init name id => simp [LibraryMember.make]
    | @borrowBook m book d n _ ih =>
      cases book with
      | none => simpa [LibraryMember.borrowBook] using ih
      | some ref =>
        unfold LibraryMember.borrowBook
        by_cases h5 : m.borrowedBooks_.length ≥ 5
        · simpa [h5] using ih
        · by_cases hr : (ref.obj.borrow d n).1 = true
          · simp only [h5, hr, if_true, if_false, List.length_append, List.length_singleton]
            omega
          · simp only [h5, hr, if_false]
            exact ih
    | @returnBook m book r _ ih =>
      cases book with
      | none => simpa [LibraryMember.returnBook] using ih
      | some ref =>
        unfold LibraryMember.returnBook
        by_cases hc : m.borrowedBooks_.contains ref.addr = true
        · by_cases hr : (ref.obj.returnBook r).1 = true
          · simp only [hc, hr, if_true]
            exact le_trans (List.length_erase_le _ _) ih
          · simp only [hc, hr, if_true, if_false]
            exact ih
        · simp only [hc, if_false]
          exact ih
    | @payFine m a _ ih =>
      unfold LibraryMember.payFine
      split_ifs
      · exact ih
      · exact ih

/-- C4 at a member holding the five books at addresses 1..5: borrowing the demo book's
unborrowed original at address 6 fails and changes nothing. -/
theorem C4_borrowBook_limit_witness :
    (LibraryMember.mk "Anna" 1001 [1, 2, 3, 4, 5] 0).borrowBook
        (some ⟨6, Book.make "Clean Code" "Robert C. Martin" "9780132350884" (1 / 2)⟩)
        ⟨28, 1, 2024⟩ 14 =
      (false, LibraryMember.mk "Anna" 1001 [1, 2, 3, 4, 5] 0,
        some ⟨6, Book.make "Clean Code" "Robert C. Martin" "9780132350884" (1 / 2)⟩) ∧
    (LibraryMember.make "Anna" 1001).borrowedBooks_.length ≤ 5 :=
  ⟨C4_borrowBook_limit.1 _ _ _ _ (by decide),
    C4_borrowBook_limit.2 _ (LibraryMember.Reachable.init "Anna" 1001)⟩

/-- C5: for every book that is already borrowed, `Book::borrow(b, n)` returns false and
leaves the book (so `isBorrowed_`, `borrowDate_` and `dueDate_`) exactly as it was; and
`LibraryMember::borrowBook` on a pointer to such a book returns false, leaves the member
(so its active set) unchanged and leaves the book unchanged. -/
theorem C5_borrow_already_borrowed (b : Book) (hb : b.isBorrowed_ = true) (d : Date) (n : Int) :
    b.borrow d n = (false, b) ∧
    ∀ (m : LibraryMember) (addr : Nat),
      m.borrowBook (some ⟨addr, b⟩) d n = (false, m, some ⟨addr, b⟩) := by
  have h : b.borrow d n = (false, b) := by simp [Book.borrow, hb]
  refine ⟨h, ?_⟩
  intro m addr
  simp [LibraryMember.borrowBook, h]

/-- C5 at the demo book, which is on loan: a second borrow on 2024-02-01 fails and keeps
the loan of 2024-01-28 with due date 2024-02-04. -/
theorem C5_borrow_already_borrowed_witness :
    demoBook.isBorrowed_ = true ∧
    (demoBook.borrow ⟨1, 2, 2024⟩ 14).1 = false ∧
    (demoBook.borrow ⟨1, 2, 2024⟩ 14).2.dueDate_ = some ⟨4, 2, 2024⟩ ∧
    ((LibraryMember.make "David" 1002).borrowBook (some ⟨1, demoBook⟩) ⟨1, 2, 2024⟩ 14).1
      = false ∧
    ((LibraryMember.make "David" 1002).borrowBook (some ⟨1, demoBook⟩)
      ⟨1, 2, 2024⟩ 14).2.1.borrowedBooks_ = [] := by
  have h := C5_borrow_already_borrowed demoBook (by decide) ⟨1, 2, 2024⟩ 14
  refine ⟨by decide, ?_, ?_, ?_, ?_⟩
  · rw [h.1]
  · rw [h.1]
    rfl
  · rw [h.2]
  · rw [h.2]
    rfl

/-- C6: with `totalFines = t`, `payFine(a)` leaves `t - a` when `0 < a <= t` and leaves the
member untouched (so `totalFines = t`) when `a <= 0` or `a > t`; the active set is
unchanged in both cases, and `t >= 0` before the call gives `totalFines >= 0` after it. -/
theorem C6_payFine (m : LibraryMember) (a : ℚ) :
    (0 < a ∧ a ≤ m.totalFines_ → (m.payFine a).totalFines_ = m.totalFines_ - a) ∧
    (a ≤ 0 ∨ a > m.totalFines_ → m.payFine a = m) ∧
    (m.payFine a).borrowedBooks_ = m.borrowedBooks_ ∧
    (0 ≤ m.totalFines_ → 0 ≤ (m.payFine a).totalFines_) := by
  unfold LibraryMember.payFine
  refine ⟨?_, ?_, ?_, ?_⟩
  · rintro ⟨h1, h2⟩
    simp [h1, h2]
  · intro h
    have hn : ¬ (0 < a ∧ a ≤ m.totalFines_) := by
      rintro ⟨h1, h2⟩
      rcases h with h | h
      · exact absurd h1 (not_lt.mpr h)
      · exact absurd h2 (not_le.mpr h)
    simp only [gt_iff_lt, Bool.and_eq_true, decide_eq_true_eq, hn, if_false]
  · split_ifs <;> rfl
  · intro h0
    split_ifs with h
    · simp only [gt_iff_lt, Bool.and_eq_true, decide_eq_true_eq] at h
      simpa using h.2
    · exact h0

/-- C6 at a member owing 5: paying 2 leaves 3, paying 7 or -1 leaves 5. -/
theorem C6_payFine_witness :
    ((LibraryMember.mk "Anna" 1001 [1] 5).payFine 2).totalFines_ = 5 - 2 ∧
    (LibraryMember.mk "Anna" 1001 [1] 5).payFine 7 = LibraryMember.mk "Anna" 1001 [1] 5 ∧
    (LibraryMember.mk "Anna" 1001 [1] 5).payFine (-1) = LibraryMember.mk "Anna" 1001 [1] 5 ∧
    0 ≤ ((LibraryMember.mk "Anna" 1001 [1] 5).payFine 2).totalFines_ :=
  ⟨(C6_payFine (LibraryMember.mk "Anna" 1001 [1] 5) 2).1 (by norm_num),
    (C6_payFine (LibraryMember.mk "Anna" 1001 [1] 5) 7).2.1 (Or.inr (by norm_num)),
    (C6_payFine (LibraryMember.mk "Anna" 1001 [1] 5) (-1)).2.1 (Or.inl (by norm_num)),
    (C6_payFine (LibraryMember.mk "Anna" 1001 [1] 5) 2).2.2.2 (by norm_num)⟩

/-- C7: when the isbn is already present among the books, `addBook` returns false and
leaves the whole registry (book list and member list) unchanged; when the member id is
already present, `addMember` returns false and leaves the registry unchanged; when the key is
not present the call returns true and the list is the old list with exactly one new entry
(a new `Book` with fine rate 0.5, resp. a new `LibraryMember`) appended at the end, the
other list being unchanged. -/
theorem C7_add_duplicate (lib : Library) :
    (∀ (title author isbn : String) (addr : Nat),
      (∃ b ∈ lib.books_, b.obj.isbn_ = isbn) →
        lib.addBook title author isbn addr = (false, lib)) ∧
    (∀ (name : String) (id : Int),
      (∃ m ∈ lib.members_, m.memberId_ = id) → lib.addMember name id = (false, lib)) ∧
    (∀ (title author isbn : String) (addr : Nat),
      (∀ b ∈ lib.books_, b.obj.isbn_ ≠ isbn) →
        (lib.addBook title author isbn addr).1 = true ∧
        (lib.addBook title author isbn addr).2.books_ =
          lib.books_ ++ [⟨addr, Book.make title author isbn (1 / 2)⟩] ∧
        (lib.addBook title author isbn addr).2.members_ = lib.members_) ∧
    (∀ (name : String) (id : Int),
      (∀ m ∈ lib.members_, m.memberId_ ≠ id) →
        (lib.addMember name id).1 = true ∧
        (lib.addMember name id).2.members_ = lib.members_ ++ [LibraryMember.make name id] ∧
        (lib.addMember name id).2.books_ = lib.books_) := by
  refine ⟨?_, ?_, ?_, ?_⟩
  · rintro title author isbn addr ⟨b, hb, hbi⟩
    have hu : lib.isIsbnUnique isbn = false := by
      rw [Bool.eq_false_iff]
      intro hall
      have := List.all_eq_true.mp hall b hb
      simp [hbi] at this
    simp [Library.addBook, hu]
  · rintro name id ⟨m, hm, hmi⟩
    have hu : lib.isMemberIdUnique id = false := by
      rw [Bool.eq_false_iff]
      intro hall
      have := List.all_eq_true.mp hall m hm
      simp [hmi] at this
    simp [Library.addMember, hu]
  · intro title author isbn addr hall
    have hu : lib.isIsbnUnique isbn = true := by
      apply List.all_eq_true.mpr
      intro b hb
      simpa using hall b hb
    simp [Library.addBook, hu, Book.defaultFinePerDay]
  · intro name id hall
    have hu : lib.isMemberIdUnique id = true := by
      apply List.all_eq_true.mpr
      intro m hm
      simpa using hall m hm
    simp [Library.addMember, hu]

/-- C7 at the demo registry: a second book with isbn 9780321563842 and a second member
with id 1001 are rejected; a book with a new isbn and a member with a new id are appended. -/
theorem C7_add_duplicate_witness :
    demoLibrary.addBook "Other" "Nobody" "9780321563842" 2 = (false, demoLibrary) ∧
    demoLibrary.addMember "David" 1001 = (false, demoLibrary) ∧
    (demoLibrary.addBook "Clean Code" "Robert C. Martin" "9780132350884" 2).2.books_ =
      demoLibrary.books_ ++
        [⟨2, Book.make "Clean Code" "Robert C. Martin" "9780132350884" (1 / 2)⟩] ∧
    (demoLibrary.addMember "David" 1002).2.members_ =
      demoLibrary.members_ ++ [LibraryMember.make "David" 1002] :=
  ⟨(C7_add_duplicate demoLibrary).1 _ _ _ _ ⟨_, List.mem_singleton.mpr rfl, rfl⟩,
    (C7_add_duplicate demoLibrary).2.1 _ _ ⟨_, List.mem_singleton.mpr rfl, rfl⟩,
    ((C7_add_duplicate demoLibrary).2.2.1 _ _ _ _ (by
      intro b hb
      rw [List.mem_singleton.mp hb]
      decide)).2.1,
    ((C7_add_duplicate demoLibrary).2.2.2 _ _ (by
      intro m hm
      rw [List.mem_singleton.mp hm]
      decide)).2.1⟩

/-- C8: `Date(day, month, year)` succeeds if and only if `year >= 1900`, `1 <= month <= 12`
and `1 <= day <= daysInMonth(month, year)`; otherwise it throws
`std::invalid_argument("Invalid date")`; on success the stored day, month and year are the
arguments. -/
theorem C8_Date_make (day month year : Int) :
    ((∃ d, Date.make day month year = Except.ok d) ↔
      (year ≥ 1900 ∧ 1 ≤ month ∧ month ≤ 12 ∧ 1 ≤ day ∧
        day ≤ Date.daysInMonth month year)) ∧
    (¬ (year ≥ 1900 ∧ 1 ≤ month ∧ month ≤ 12 ∧ 1 ≤ day ∧
        day ≤ Date.daysInMonth month year) →
      Date.make day month year = Except.error (Exception.invalid_argument "Invalid date")) ∧
    (∀ d, Date.make day month year = Except.ok d →
      d.day_ = day ∧ d.month_ = month ∧ d.year_ = year) := by
  have hv := Date.isValid_iff ⟨day, month, year⟩
  simp only at hv
  unfold Date.make
  by_cases h : Date.isValid ⟨day, month, year⟩ = true
  · have hb := hv.mp h
    simp [h, hb]
  · have hb : ¬ _ := fun hc => h (hv.mpr hc)
    simp [h, hb]

/-- C8 at 2023-02-29, which is rejected, and at 2024-02-29, which is accepted. -/
theorem C8_Date_make_witness :
    Date.make 29 2 2023 = Except.error (Exception.invalid_argument "Invalid date") ∧
    ∃ d, Date.make 29 2 2024 = Except.ok d :=
  ⟨(C8_Date_make 29 2 2023).2.1 (by decide), (C8_Date_make 29 2 2024).1.mpr (by decide)⟩

/-- C9: `daysInMonth(2, y)` is 29 if and only if `y` is divisible by 4 and (not divisible
by 100 or divisible by 400), and 28 otherwise (2000 -> 29, 1900 -> 28, 2024 -> 29,
2023 -> 28); for a month in 1..12 the result is one of 28, 29, 30, 31, namely 31 for the
months 1, 3, 5, 7, 8, 10, 12 and 30 for the months 4, 6, 9, 11; for a month outside 1..12
the result is 0. -/
theorem C9_daysInMonth :
    (∀ y : Int, (Date.daysInMonth 2 y = 29 ↔ (4 ∣ y ∧ (¬ (100 ∣ y) ∨ 400 ∣ y))) ∧
      (¬ (4 ∣ y ∧ (¬ (100 ∣ y) ∨ 400 ∣ y)) → Date.daysInMonth 2 y = 28)) ∧
    (Date.daysInMonth 2 2000 = 29 ∧ Date.daysInMonth 2 1900 = 28 ∧
      Date.daysInMonth 2 2024 = 29 ∧ Date.daysInMonth 2 2023 = 28) ∧
    (∀ m y : Int, 1 ≤ m → m ≤ 12 →
      Date.daysInMonth m y = 28 ∨ Date.daysInMonth m y = 29 ∨
        Date.daysInMonth m y = 30 ∨ Date.daysInMonth m y = 31) ∧
    (∀ m y : Int, m ∈ [1, 3, 5, 7, 8, 10, 12] → Date.daysInMonth m y = 31) ∧
    (∀ m y : Int, m ∈ [4, 6, 9, 11] → Date.daysInMonth m y = 30) ∧
    (∀ m y : Int, (m < 1 ∨ 12 < m) → Date.daysInMonth m y = 0) := by
  have hfeb : ∀ y : Int, Date.daysInMonth 2 y = if Date.isLeapYear y then 29 else 28 := by
    intro y
    cases hl : Date.isLeapYear y <;> simp [Date.daysInMonth, Date.days, hl]
  refine ⟨?_, ⟨by decide, by decide, by decide, by decide⟩, ?_, ?_, ?_, ?_⟩
  · intro y
    rw [hfeb, ← Date.isLeapYear_iff]
    cases Date.isLeapYear y <;> simp
  · intro m y h1 h12
    by_cases h2 : m = 2
    · subst h2
      rw [hfeb]
      cases Date.isLeapYear y <;> simp
    · interval_cases m <;> simp [Date.daysInMonth, Date.days] at h2 ⊢
  · intro m y hm
    simp only [List.mem_cons, List.mem_singleton, List.not_mem_nil, or_false] at hm
    rcases hm with h | h | h | h | h | h | h <;> subst h <;> simp [Date.daysInMonth, Date.days]
  · intro m y hm
    simp only [List.mem_cons, List.mem_singleton, List.not_mem_nil, or_false] at hm
    rcases hm with h | h | h | h <;> subst h <;> simp [Date.daysInMonth, Date.days]
  · intro m y hm
    have h2 : m ≠ 2 := by omega
    have hr : ¬ (1 ≤ m ∧ m ≤ 12) := by omega
    simp [Date.daysInMonth, h2, hr]

/-- C9 at February 2100 (divisible by 100, not by 400), at month 9 and at month 13. -/
theorem C9_daysInMonth_witness :
    Date.daysInMonth 2 2100 = 28 ∧ Date.daysInMonth 9 2024 = 30 ∧
    Date.daysInMonth 13 2024 = 0 :=
  ⟨(C9_daysInMonth.1 2100).2 (by decide), C9_daysInMonth.2.2.2.2.1 9 2024 (by decide),
    C9_daysInMonth.2.2.2.2.2 13 2024 (by decide)⟩

/-- C11: for every date x (valid or not), `x.addDays(0)` has the same day, month and year
as x, so `x.addDays(0) == x` is true. -/
theorem C11_addDays_zero (x : Date) :
    x.addDays 0 = x ∧ (x.addDays 0).eq x = true := by
  have h : x.addDays 0 = x := rfl
  exact ⟨h, by rw [h, Date.eq_iff]⟩

/-- C12: for all dates a and b (valid or not), exactly one of `a < b`, `a == b`, `a > b`
holds; `<` is the lexicographic comparison of year, then month, then day; and the derived
operators agree with it: `a > b` iff `b < a`, `a <= b` iff (`a < b` or `a == b`),
`a >= b` iff (`a > b` or `a == b`), `a != b` iff not `a == b`. -/
theorem C12_order (a b : Date) :
    ((a.lt b = true ∧ a.eq b = false ∧ a.gt b = false) ∨
      (a.lt b = false ∧ a.eq b = true ∧ a.gt b = false) ∨
      (a.lt b = false ∧ a.eq b = false ∧ a.gt b = true)) ∧
    (a.lt b = true ↔
      (a.year_ < b.year_ ∨ (a.year_ = b.year_ ∧
        (a.month_ < b.month_ ∨ (a.month_ = b.month_ ∧ a.day_ < b.day_))))) ∧
    (a.gt b = true ↔ b.lt a = true) ∧
    (a.le b = true ↔ (a.lt b = true ∨ a.eq b = true)) ∧
    (a.ge b = true ↔ (a.gt b = true ∨ a.eq b = true)) ∧
    (a.ne b = true ↔ ¬ (a.eq b = true)) := by
  have hlt := Date.lt_iff a b
  have hgt := Date.lt_iff b a
  have heq : a.eq b = true ↔
      (a.day_ = b.day_ ∧ a.month_ = b.month_ ∧ a.year_ = b.year_) := by
    simp [Date.eq, and_assoc]
  have tri : (a.lt b = true ∧ a.eq b = false ∧ b.lt a = false) ∨
      (a.lt b = false ∧ a.eq b = true ∧ b.lt a = false) ∨
      (a.lt b = false ∧ a.eq b = false ∧ b.lt a = true) := by
    simp only [← Bool.not_eq_true, hlt, hgt, heq]
    omega
  refine ⟨tri, hlt, Iff.rfl, ?_, ?_, ?_⟩
  · unfold Date.le
    rcases tri with ⟨h1, h2, h3⟩ | ⟨h1, h2, h3⟩ | ⟨h1, h2, h3⟩ <;> simp [h1, h2, h3]
  · unfold Date.ge Date.gt
    rcases tri with ⟨h1, h2, h3⟩ | ⟨h1, h2, h3⟩ | ⟨h1, h2, h3⟩ <;> simp [h1, h2, h3]
  · unfold Date.ne
    cases a.eq b <;> simp

/-- C13: for every book that is not borrowed, every date b and every loanDays n,
`Book::borrow(b, n)` returns true and leaves the book with `isBorrowed_ = true`,
`borrowDate_ = b` and `dueDate_ = b.addDays(n)`; and in every state reachable from a newly
constructed `Book` by `borrow` and `returnBook` calls, `borrowDate_` and `dueDate_` are both
present when `isBorrowed_` is true and both absent when it is false. -/
theorem C13_borrow_loan :
    (∀ (b : Book) (d : Date) (n : Int), b.isBorrowed_ = false →
      (b.borrow d n).1 = true ∧ (b.borrow d n).2.isBorrowed_ = true ∧
      (b.borrow d n).2.borrowDate_ = some d ∧
      (b.borrow d n).2.dueDate_ = some (d.addDays n)) ∧
    (∀ b : Book, Book.Reachable b →
      (b.isBorrowed_ = true → b.borrowDate_.isSome = true ∧ b.dueDate_.isSome = true) ∧
      (b.isBorrowed_ = false → b.borrowDate_ = none ∧ b.dueDate_ = none)) := by
  constructor
  · intro b d n hb
    simp [Book.borrow, hb]
  · intro b hb
    induction hb with
    | init title author isbn finePerDay => simp [Book.make]
    | @borrow b d n _ ih =>
      unfold Book.borrow
      cases h : b.isBorrowed_
      · simp
      · simpa [h] using ih
    | @returnBook b r _ ih =>
      unfold Book.returnBook
      cases h : b.isBorrowed_
      · simpa [h] using ih
      · simp

/-- C13 at the first demo book: borrowing the new book on 2024-01-28 for 7 days sets
the due date to 2024-01-28 plus 7 days, and the reachable state after borrowing and returning
it has neither date. -/
theorem C13_borrow_loan_witness :
    ((Book.make "Clean Code" "Robert C. Martin" "9780132350884" (1 / 2)).borrow
      ⟨28, 1, 2024⟩ 7).2.dueDate_ = some (Date.addDays ⟨28, 1, 2024⟩ 7) ∧
    (demoBook.returnBook ⟨7, 2, 2024⟩).2.borrowDate_ = none ∧
    (demoBook.returnBook ⟨7, 2, 2024⟩).2.dueDate_ = none :=
  ⟨(C13_borrow_loan.1 _ ⟨28, 1, 2024⟩ 7 rfl).2.2.2,
    (C13_borrow_loan.2 _ (Book.Reachable.returnBook ⟨7, 2, 2024⟩
      (Book.Reachable.borrow ⟨28, 1, 2024⟩ 7
        (Book.Reachable.init "The C++ Programming Language" "Bjarne Stroustrup"
          "9780321563842" Book.defaultFinePerDay)))).2 rfl⟩

/-- C14: for every member, book pointer and return date, if the pointer is not in the
member's active set (whatever the state of the book, so also when it is on loan to someone
else, and also for `nullptr`), or it is in the set but the book has no active loan,
`LibraryMember::returnBook` returns false and leaves the member (active set, totalFines)
and the book (borrowed flag and dates) unchanged. -/
theorem C14_returnBook_fails (m : LibraryMember) (book : Option BookRef) (r : Date)
    (h : ∀ ref, book = some ref →
      (ref.addr ∉ m.borrowedBooks_ ∨ ref.obj.isBorrowed_ = false)) :
    m.returnBook book r = (false, m, book) := by
  cases book with
  | none => rfl
  | some ref =>
    unfold LibraryMember.returnBook
    rcases h ref rfl with hn | hb
    · simp [hn]
    · have hr : ref.obj.returnBook r = (false, ref.obj) := by
        simp [Book.returnBook, hb]
      by_cases hc : ref.addr ∈ m.borrowedBooks_ <;> simp [hc, hr]

/-- C14 at the demo: David, who holds nothing, cannot return the book that is on loan to
Anna; and Anna cannot return a book at address 1 that has no active loan. -/
theorem C14_returnBook_fails_witness :
    (LibraryMember.make "David" 1002).returnBook (some ⟨1, demoBook⟩) ⟨7, 2, 2024⟩ =
      (false, LibraryMember.make "David" 1002, some ⟨1, demoBook⟩) ∧
    demoMember.returnBook
        (some ⟨1, Book.make "Clean Code" "Robert C. Martin" "9780132350884" (1 / 2)⟩)
        ⟨7, 2, 2024⟩ =
      (false, demoMember,
        some ⟨1, Book.make "Clean Code" "Robert C. Martin" "9780132350884" (1 / 2)⟩) :=
  ⟨C14_returnBook_fails _ _ _ (by
      intro ref href
      cases href
      exact Or.inl (by decide)),
    C14_returnBook_fails _ _ _ (by
      intro ref href
      cases href
      exact Or.inr rfl)⟩

/-- C15: `Library::removeBook(isbn)` leaves the book list equal to the previous list with
exactly the entries whose isbn matches removed, the other entries being kept in their
previous relative order; it returns true if and only if at least one entry matched; none of
this depends on whether a matching book is borrowed; the member list is unchanged. -/
theorem C15_removeBook (lib : Library) (isbn : String) :
    (lib.removeBook isbn).2.books_ =
      lib.books_.filter (fun b => !(b.obj.isbn_ == isbn)) ∧
    (∀ b, b ∈ (lib.removeBook isbn).2.books_ ↔ (b ∈ lib.books_ ∧ b.obj.isbn_ ≠ isbn)) ∧
    List.Sublist (lib.removeBook isbn).2.books_ lib.books_ ∧
    ((lib.removeBook isbn).1 = true ↔ ∃ b ∈ lib.books_, b.obj.isbn_ = isbn) ∧
    (lib.removeBook isbn).2.members_ = lib.members_ := by
  have hlen : (lib.books_.filter (fun b => !(b.obj.isbn_ == isbn))).length <
      lib.books_.length ↔ ∃ b ∈ lib.books_, b.obj.isbn_ = isbn := by
    rw [List.length_filter_lt_length_iff_exists]
    simp
  have hbooks : (lib.removeBook isbn).2.books_ =
      lib.books_.filter (fun b => !(b.obj.isbn_ == isbn)) := by
    unfold Library.removeBook
    simp only
    split_ifs with h
    · rfl
    · symm
      rw [List.filter_eq_self]
      intro b hb
      have hne : b.obj.isbn_ ≠ isbn := fun hbe => h (hlen.mpr ⟨b, hb, hbe⟩)
      simpa using hne
  refine ⟨hbooks, ?_, ?_, ?_, ?_⟩
  · intro b
    rw [hbooks]
    simp
  · rw [hbooks]
    exact List.filter_sublist _
  · rw [← hlen]
    unfold Library.removeBook
    simp only
    split_ifs with h
    · exact ⟨fun _ => h, fun _ => rfl⟩
    · exact ⟨fun hf => hf.elim, fun hl => absurd hl h⟩
  · unfold Library.removeBook
    simp only
    split_ifs <;> rfl

/-- C15 at the demo registry whose only book is on loan: removing it by isbn succeeds and
empties the book list, removing an unknown isbn fails, the member list stays. -/
theorem C15_removeBook_witness :
    demoLibraryOnLoan.books_.map (fun b => b.obj.isBorrowed_) = [true] ∧
    (demoLibraryOnLoan.removeBook "9780321563842").1 = true ∧
    (demoLibraryOnLoan.removeBook "9780321563842").2.books_ = [] ∧
    ¬ ((demoLibraryOnLoan.removeBook "9780132350884").1 = true) ∧
    (demoLibraryOnLoan.removeBook "9780321563842").2.members_ = demoLibraryOnLoan.members_ :=
  ⟨rfl,
    (C15_removeBook demoLibraryOnLoan "9780321563842").2.2.2.1.mpr
      ⟨⟨1, demoBook⟩, List.mem_singleton.mpr rfl, rfl⟩,
    (C15_removeBook demoLibraryOnLoan "9780321563842").1.trans rfl,
    fun h => by
      obtain ⟨b, hb, hbi⟩ := (C15_removeBook demoLibraryOnLoan "9780132350884").2.2.2.1.mp h
      rw [List.mem_singleton.mp hb] at hbi
      exact absurd hbi (by decide),
    (C15_removeBook demoLibraryOnLoan "9780321563842").2.2.2.2⟩

/-- C16: in every registry state reachable from a new `Library` by `addBook`, `removeBook`,
`addMember`, `borrowBook`, `returnBook` and `setCurrentDate`, no two books have the same isbn
and no two members have the same member id; hence `findBookByIsbn` / `findMemberById` return
any entry that has the key (so there is only one) and return `nullptr` when no entry has it. -/
theorem C16_unique_keys (lib : Library) (h : Library.Reachable lib) :
    lib.books_.Pairwise (fun a b => a.obj.isbn_ ≠ b.obj.isbn_) ∧
    lib.members_.Pairwise (fun a b => a.memberId_ ≠ b.memberId_) ∧
    (∀ isbn : String,
      (∀ b ∈ lib.books_, b.obj.isbn_ = isbn → lib.findBookByIsbn isbn = some b) ∧
      ((∀ b ∈ lib.books_, b.obj.isbn_ ≠ isbn) → lib.findBookByIsbn isbn = none)) ∧
    (∀ id : Int,
      (∀ m ∈ lib.members_, m.memberId_ = id → lib.findMemberById id = some m) ∧
      ((∀ m ∈ lib.members_, m.memberId_ ≠ id) → lib.findMemberById id = none)) := by
  have hinv : (lib.books_.map (fun b => b.obj.isbn_)).Nodup ∧
      (lib.members_.map (fun m => m.memberId_)).Nodup := by
    induction h with
    | init dataFile => simp [Library.make]
    | @addBook lib title author isbn addr _ ih =>
      unfold Library.addBook
      by_cases hu : lib.isIsbnUnique isbn = true
      · have hall : ∀ b ∈ lib.books_, b.obj.isbn_ ≠ isbn := by
          intro b hb
          simpa using List.all_eq_true.mp hu b hb
        simp only [hu, Bool.not_true, Bool.false_eq_true, if_false, List.map_append,
          List.map_cons, List.map_nil]
        refine ⟨?_, ih.2⟩
        rw [List.nodup_append]
        refine ⟨ih.1, List.nodup_singleton _, ?_⟩
        intro k hk1 hk2
        obtain ⟨b, hb, hbk⟩ := List.mem_map.mp hk1
        rw [List.mem_singleton] at hk2
        exact hall b hb (hbk.trans hk2)
      · simp only [hu, Bool.not_false, if_true]
        exact ih
    | @removeBook lib isbn _ ih =>
      unfold Library.removeBook
      simp only
      split_ifs
      · exact ⟨(ih.1.sublist ((List.filter_sublist _).map _)), ih.2⟩
      · exact ih
    | @addMember lib name id _ ih =>
      unfold Library.addMember
      by_cases hu : lib.isMemberIdUnique id = true
      · have hall : ∀ m ∈ lib.members_, m.memberId_ ≠ id := by
          intro m hm
          simpa using List.all_eq_true.mp hu m hm
        simp only [hu, Bool.not_true, Bool.false_eq_true, if_false, List.map_append,
          List.map_cons, List.map_nil]
        refine ⟨ih.1, ?_⟩
        rw [List.nodup_append]
        refine ⟨ih.2, List.nodup_singleton _, ?_⟩
        intro k hk1 hk2
        obtain ⟨m, hm, hmk⟩ := List.mem_map.mp hk1
        rw [List.mem_singleton] at hk2
        exact hall m hm (hmk.trans hk2)
      · simp only [hu, Bool.not_false, if_true]
        exact ih
    | @borrowBook lib isbn memberId n _ ih =>
      obtain ⟨hb, hm⟩ := Library.borrowBook_keys lib isbn memberId n
      rw [hb, hm]
      exact ih
    | @returnBook lib isbn memberId _ ih =>
      obtain ⟨hb, hm⟩ := Library.returnBook_keys lib isbn memberId
      rw [hb, hm]
      exact ih
    | @setCurrentDate lib date _ ih => exact ih
  refine ⟨List.pairwise_map.mp hinv.1, List.pairwise_map.mp hinv.2, ?_, ?_⟩
  · intro isbn
    constructor
    · intro b hb hbi
      subst hbi
      exact find?_of_nodup_keys (fun b : BookRef => b.obj.isbn_) lib.books_ hinv.1 b hb
    · intro hall
      unfold Library.findBookByIsbn
      rw [List.find?_eq_none]
      intro b hb
      simpa using hall b hb
  · intro id
    constructor
    · intro m hm hmi
      subst hmi
      exact find?_of_nodup_keys (fun m : LibraryMember => m.memberId_) lib.members_ hinv.2 m hm
    · intro hall
      unfold Library.findMemberById
      rw [List.find?_eq_none]
      intro m hm
      simpa using hall m hm

/-- C16 at the registry reached by adding the first book and the first member of the demo:
the lookups by isbn 9780321563842 and by id 1001 return those entries, and the lookup of
an isbn that was never added returns `nullptr`. -/
theorem C16_unique_keys_witness :
    demoLibraryStart.findBookByIsbn "9780321563842" =
      some ⟨1, Book.make "The C++ Programming Language" "Bjarne Stroustrup" "9780321563842"
        Book.defaultFinePerDay⟩ ∧
    demoLibraryStart.findMemberById 1001 = some (LibraryMember.make "Anna" 1001) ∧
    demoLibraryStart.findBookByIsbn "9780132350884" = none :=
  have hr : Library.Reachable demoLibraryStart :=
    Library.Reachable.addMember "Anna" 1001
      (Library.Reachable.addBook "The C++ Programming Language" "Bjarne Stroustrup"
        "9780321563842" 1 (Library.Reachable.init "library_data.txt"))
  ⟨((C16_unique_keys demoLibraryStart hr).2.2.1 "9780321563842").1 _
      (List.mem_singleton.mpr rfl) rfl,
    ((C16_unique_keys demoLibraryStart hr).2.2.2 1001).1 _ (List.mem_singleton.mpr rfl) rfl,
    ((C16_unique_keys demoLibraryStart hr).2.2.1 "9780132350884").2 (by
      intro b hb
      rw [List.mem_singleton.mp hb]
      decide)⟩

/-- C17: for every valid date x (`year >= 1900`, `month` in 1..12,
`1 <= day <= daysInMonth(month, year)`) and every n, `x.addDays(n)` is again a valid date,
although `addDays` never re-runs the constructor's validation; integer overflow of the year
is set aside by `n <= 365 * (2147483647 - year)`, under which `year_++` never overflows. -/
theorem C17_addDays_valid (x : Date) (hx : x.isValid = true) (n : Int)
    (hov : n ≤ 365 * (2147483647 - x.year_)) :
    (x.addDays n).isValid = true ∧
    ((x.addDays n).year_ ≥ 1900 ∧ 1 ≤ (x.addDays n).month_ ∧ (x.addDays n).month_ ≤ 12 ∧
      1 ≤ (x.addDays n).day_ ∧
      (x.addDays n).day_ ≤ Date.daysInMonth (x.addDays n).month_ (x.addDays n).year_) := by
  have h : (x.addDays n).isValid = true := by
    rcases le_or_lt n 0 with hn | hn
    · unfold Date.addDays
      rw [Int.toNat_of_nonpos hn]
      exact hx
    · have hord := Date.ordinal365_add_le x hx n hov
      exact (Date.addDaysLoop_step n.toNat x hx (by omega)).1
  exact ⟨h, (Date.isValid_iff _).mp h⟩

/-- C17 at 2024-02-29 plus 365 days, which is the valid date 2025-02-28. -/
theorem C17_addDays_valid_witness :
    Date.isValid ⟨29, 2, 2024⟩ = true ∧
    (Date.addDays ⟨29, 2, 2024⟩ 365).isValid = true :=
  ⟨by decide, (C17_addDays_valid ⟨29, 2, 2024⟩ (by decide) 365 (by decide)).1⟩

/-- C19: for every date x (in particular every valid one) and all `m, n >= 0`,
`x.addDays(m).addDays(n)` has the same day, month and year as `x.addDays(m + n)`, so the
two compare equal under `==`. -/
theorem C19_addDays_add (x : Date) (m n : Int) (hm : 0 ≤ m) (hn : 0 ≤ n) :
    (x.addDays m).addDays n = x.addDays (m + n) ∧
    ((x.addDays m).addDays n).eq (x.addDays (m + n)) = true := by
  have h : (x.addDays m).addDays n = x.addDays (m + n) := by
    unfold Date.addDays
    rw [Int.toNat_add hm hn, Date.addDaysLoop_add]
  exact ⟨h, (Date.eq_iff _ _).mpr h⟩

/-- C19 at 2024-01-28: 7 days and then 10 days is 17 days, 2024-02-14. -/
theorem C19_addDays_add_witness :
    (Date.addDays (Date.addDays ⟨28, 1, 2024⟩ 7) 10) = Date.addDays ⟨28, 1, 2024⟩ (7 + 10) :=
  (C19_addDays_add ⟨28, 1, 2024⟩ 7 10 (by decide) (by decide)).1

/-- C20 fails as stated: `Date(31,12,2147483647)` is accepted by the constructor, and
`addDays(1)` overflows `year_++` and returns (1, 1, -2147483648), which is before the date
itself; a loan created on that date with `loanDays = 1` is overdue on its borrow date. -/
theorem C20_addDays_mono_counterexample :
    Date.make 31 12 2147483647 = Except.ok ⟨31, 12, 2147483647⟩ ∧
    Date.isValid ⟨31, 12, 2147483647⟩ = true ∧
    Date.addDays ⟨31, 12, 2147483647⟩ 1 = ⟨1, 1, -2147483648⟩ ∧
    Date.lt (Date.addDays ⟨31, 12, 2147483647⟩ 0) (Date.addDays ⟨31, 12, 2147483647⟩ 1)
      = false ∧
    Date.lt ⟨31, 12, 2147483647⟩ (Date.addDays ⟨31, 12, 2147483647⟩ 1) = false ∧
    ((Book.make "Clean Code" "Robert C. Martin" "9780132350884" (1 / 2)).borrow
      ⟨31, 12, 2147483647⟩ 1).2.dueDate_ = some ⟨1, 1, -2147483648⟩ ∧
    ((Book.make "Clean Code" "Robert C. Martin" "9780132350884" (1 / 2)).borrow
      ⟨31, 12, 2147483647⟩ 1).2.isOverdue ⟨31, 12, 2147483647⟩ = true := by
  refine ⟨rfl, by decide, by decide, by decide, by decide, rfl, ?_⟩
  have hdue : ((Book.make "Clean Code" "Robert C. Martin" "9780132350884" (1 / 2)).borrow
      ⟨31, 12, 2147483647⟩ 1).2.dueDate_ = some ⟨1, 1, -2147483648⟩ := rfl
  simp only [Book.isOverdue, hdue]
  rfl

/-- C20 (amended): for every valid date x and all `0 <= m < n` with
`n <= 365 * (2147483647 - x.year)`, so that `year_++` never overflows,
`x.addDays(m) < x.addDays(n)`; in particular `x < x.addDays(n)` for such `n > 0`, so a loan
created by `Book::borrow` on x with such a `loanDays > 0` has its due date strictly after
its borrow date and is not overdue on the borrow date; and for `n <= 0`, `addDays(n)`
returns x unchanged. -/
theorem C20_addDays_mono (x : Date) (hx : x.isValid = true) :
    (∀ m n : Int, 0 ≤ m → m < n → n ≤ 365 * (2147483647 - x.year_) →
      (x.addDays m).lt (x.addDays n) = true) ∧
    (∀ n : Int, 0 < n → n ≤ 365 * (2147483647 - x.year_) → x.lt (x.addDays n) = true) ∧
    (∀ (b : Book) (n : Int), b.isBorrowed_ = false → 0 < n →
      n ≤ 365 * (2147483647 - x.year_) →
      (b.borrow x n).2.borrowDate_ = some x ∧
      (b.borrow x n).2.dueDate_ = some (x.addDays n) ∧
      x.lt (x.addDays n) = true ∧
      (b.borrow x n).2.isOverdue x = false) ∧
    (∀ n : Int, n ≤ 0 → x.addDays n = x) := by
  have hpos : ∀ n : Int, 0 < n → n ≤ 365 * (2147483647 - x.year_) →
      x.lt (x.addDays n) = true := by
    intro n hn hov
    have hord := Date.ordinal365_add_le x hx n hov
    exact Date.lt_addDaysLoop n.toNat x hx (by omega) (by omega)
  refine ⟨?_, hpos, ?_, ?_⟩
  · intro m n hm hmn hov
    have hord := Date.ordinal365_add_le x hx n hov
    have hsplit : n.toNat = m.toNat + (n - m).toNat := by omega
    obtain ⟨hv, ho⟩ := Date.addDaysLoop_step m.toNat x hx (by omega)
    unfold Date.addDays
    rw [hsplit, Date.addDaysLoop_add]
    exact Date.lt_addDaysLoop _ _ hv (by omega) (by omega)
  · intro b n hb hn hov
    have hlt := hpos n hn hov
    refine ⟨by simp [Book.borrow, hb], by simp [Book.borrow, hb], hlt, ?_⟩
    simp [Book.borrow, Book.isOverdue, hb, Date.gt, Date.lt_asymm _ _ hlt]
  · intro n hn
    unfold Date.addDays
    rw [Int.toNat_of_nonpos hn]
    rfl

/-- C20 (amended) at 2024-01-28: 7 days later is before 14 days later, the borrow date is
before the due date of a 7-day loan, and `addDays(-3)` returns the date unchanged. -/
theorem C20_addDays_mono_witness :
    Date.lt (Date.addDays ⟨28, 1, 2024⟩ 7) (Date.addDays ⟨28, 1, 2024⟩ 14) = true ∧
    Date.lt ⟨28, 1, 2024⟩ (Date.addDays ⟨28, 1, 2024⟩ 7) = true ∧
    ((Book.make "Clean Code" "Robert C. Martin" "9780132350884" (1 / 2)).borrow
      ⟨28, 1, 2024⟩ 7).2.isOverdue ⟨28, 1, 2024⟩ = false ∧
    Date.addDays ⟨28, 1, 2024⟩ (-3) = ⟨28, 1, 2024⟩ :=
  ⟨(C20_addDays_mono ⟨28, 1, 2024⟩ (by decide)).1 7 14 (by decide) (by decide) (by decide),
    (C20_addDays_mono ⟨28, 1, 2024⟩ (by decide)).2.1 7 (by decide) (by decide),
    ((C20_addDays_mono ⟨28, 1, 2024⟩ (by decide)).2.2.1 _ 7 rfl (by decide)
      (by decide)).2.2.2,
    (C20_addDays_mono ⟨28, 1, 2024⟩ (by decide)).2.2.2 (-3) (by decide)⟩

end LMS
